import Mathlib

/-
Shallow embedding of the py_zlib download orchestration scripts
(config.py, download_files.py, download_covers.py, download_enhanced.py,
selenium_login.py).  Python strings are modelled as Lean String / List Char,
the metadata CSV as a list of records, the filesystem as an association
list from path to file size, and HTTP responses as explicit data.
-/

-- ===== config.py constants =====

def MIN_FILE_SIZE : Nat := 1000

def MAX_FILE_SIZE : Nat := 500 * 1024 * 1024

def MAX_FILENAME_LENGTH : Nat := 160

def EBOOK_FOLDER : String := "zlib_data"

def FILES_FOLDER : String := "files"

def COVERS_FOLDER : String := "covers"

def filesDir : String := EBOOK_FOLDER ++ "/" ++ FILES_FOLDER

def coversDir : String := EBOOK_FOLDER ++ "/" ++ COVERS_FOLDER

def INVALID_FILENAME_CHARS : List Char := ['<', '>', ':', '"', '/', '\\', '|', '?', '*']

/-- One entry of config.ZLIBRARY_ACCOUNTS (the last_reset date string is
omitted: it is set from the wall clock and never read by the code under
verification). -/
structure Account where
  email : String
  password : String
  max_daily_downloads : Nat
  daily_downloads : Nat
deriving DecidableEq, Repr

def ZLIBRARY_ACCOUNTS : List Account :=
  [⟨"your_email1@example.com", "your_password1", 10, 0⟩,
   ⟨"your_email2@example.com", "your_password2", 10, 0⟩,
   ⟨"your_email3@example.com", "your_password3", 10, 0⟩]

-- ===== character-level string helpers (Python str methods) =====

/-- Python str.split() whitespace set (ASCII part). -/
def isPySpace (c : Char) : Bool :=
  c = ' ' || c = '\t' || c = '\n' || c = '\r' || c = Char.ofNat 11 || c = Char.ofNat 12

/-- Attach a non-space character to the front of the split of the rest:
it joins the first group when the rest starts with another non-space
character, and opens a new group otherwise. -/
def consGroup (c : Char) (cs : List Char) (gs : List (List Char)) : List (List Char) :=
  match cs, gs with
  | d :: _, g :: gs1 => if isPySpace d then [c] :: g :: gs1 else (c :: g) :: gs1
  | _, _ => [[c]]

/-- Python s.split(): split on whitespace runs, discarding empty pieces. -/
def splitWs : List Char → List (List Char)
  | [] => []
  | c :: cs => if isPySpace c then splitWs cs else consGroup c cs (splitWs cs)

/-- Python ' '.join(groups). -/
def joinSpace : List (List Char) → List Char
  | [] => []
  | [g] => g
  | g :: gs => g ++ ' ' :: joinSpace gs

/-- Python s.replace(' ', '-'). -/
def hyphenate (s : List Char) : List Char :=
  s.map (fun c => if c = ' ' then '-' else c)

/-- The loop `for char in INVALID_FILENAME_CHARS: filename = filename.replace(char, '_')`
in config.sanitize_filename. -/
def removeInvalidChars (s : List Char) : List Char :=
  INVALID_FILENAME_CHARS.foldl (fun acc c => acc.map (fun x => if x = c then '_' else x)) s

/-- config.sanitize_filename, char-level pipeline: replace invalid
characters, collapse whitespace, hyphenate, truncate. -/
def sanitizeChars (s : List Char) : List Char :=
  if MAX_FILENAME_LENGTH < (hyphenate (joinSpace (splitWs (removeInvalidChars s)))).length then
    (hyphenate (joinSpace (splitWs (removeInvalidChars s)))).take MAX_FILENAME_LENGTH
  else hyphenate (joinSpace (splitWs (removeInvalidChars s)))

/-- config.sanitize_filename. -/
def sanitize_filename (s : String) : String :=
  String.mk (sanitizeChars s.toList)

/-- Python re.sub of a whitespace run by a single space (ASCII whitespace). -/
def collapseWs : List Char → List Char
  | [] => []
  | [c] => if isPySpace c then [' '] else [c]
  | c :: d :: cs =>
    if isPySpace c && isPySpace d then collapseWs (d :: cs)
    else (if isPySpace c then ' ' else c) :: collapseWs (d :: cs)

/-- Python s.rsplit(' ', 1)[0]: drop the part after the last space, if any. -/
def dropAfterLastSpace (s : List Char) : List Char :=
  if s.contains ' ' then ((s.reverse.dropWhile (fun c => c != ' ')).drop 1).reverse
  else s

/-- Python s.strip(). -/
def stripWsEnds (s : List Char) : List Char :=
  ((s.dropWhile isPySpace).reverse.dropWhile isPySpace).reverse

/-- EnhancedFileDownloader.sanitize_filename / CoverDownloader.sanitize_filename:
combine title and author, strip invalid characters (re.sub removes them),
collapse whitespace runs, truncate at a word boundary, strip. -/
def downloaderSanitize (title author : String) : String :=
  let s0 := (title ++ " - " ++ author).toList
  let s1 := s0.filter (fun c => !(INVALID_FILENAME_CHARS.contains c))
  let s2 := collapseWs s1
  let s3 := if MAX_FILENAME_LENGTH < s2.length then dropAfterLastSpace (s2.take MAX_FILENAME_LENGTH)
            else s2
  String.mk (stripWsEnds s3)

/-- Target path of a book file in download_files.py (os.path.join of the
files dir and the sanitized name plus extension). -/
def filePathOf (title author ext : String) : String :=
  filesDir ++ "/" ++ downloaderSanitize title author ++ "." ++ ext

-- substring containment ('needle in haystack' in Python)

def leadsWith : List Char → List Char → Bool
  | [], _ => true
  | _ :: _, [] => false
  | a :: as, b :: bs => a = b && leadsWith as bs

def hasSub (needle : List Char) : List Char → Bool
  | [] => leadsWith needle []
  | c :: cs => leadsWith needle (c :: cs) || hasSub needle cs

/-- Python `needle in hay` on strings. -/
def strContains (hay needle : String) : Bool :=
  hasSub needle.toList hay.toList

-- os.path.splitext extension, and CoverDownloader.get_cover_extension

/-- Extension part of os.path.splitext on a path's last component:
the suffix from the last dot, unless the name up to that dot is all dots. -/
def splitextExt (s : List Char) : List Char :=
  let pre := s.reverse.takeWhile (fun c => c != '.')
  if pre.length + 1 < s.length ∧ (s.take (s.length - pre.length - 1)).any (fun c => c != '.') then
    '.' :: pre.reverse
  else []

def lastSegment (url : List Char) : List Char :=
  (url.reverse.takeWhile (fun c => c != '/')).reverse

def allowedCoverExts : List (List Char) :=
  [".jpg".toList, ".jpeg".toList, ".png".toList, ".gif".toList, ".webp".toList]

/-- CoverDownloader.get_cover_extension. -/
def get_cover_extension (url : String) : String :=
  if url = "" then ".jpg"
  else
    let ext := splitextExt (lastSegment url.toList)
    let lowered := ext.map Char.toLower
    if ext ≠ [] ∧ ext.length ≤ 5 ∧ lowered ∈ allowedCoverExts then String.mk lowered
    else ".jpg"

/-- Target path of a cover image in download_covers.py. -/
def coverPathOf (title author coverUrl : String) : String :=
  coversDir ++ "/" ++ downloaderSanitize title author ++ get_cover_extension coverUrl

-- ===== the metadata CSV (the ledger) =====

/-- One row of zlib_metadata.csv, restricted to the columns the download
scripts read or write. -/
structure Record where
  id : String
  title : String
  author : String
  extension : String
  download_url : String
  cover_url : String
  file_downloaded : String
  download_account : String
  download_error : String
  cover_downloaded : String
  cover_path : String
  download_status : String
deriving DecidableEq, Repr

/-- EnhancedFileDownloader.update_file_status: mask rows by id, set
file_downloaded, and set download_account / download_error only when the
given strings are truthy (non-empty). -/
def update_file_status (df : List Record) (book_id status account_email error_msg : String) :
    List Record :=
  df.map (fun r =>
    if r.id = book_id then
      { r with
        file_downloaded := status,
        download_account := if account_email ≠ "" then account_email else r.download_account,
        download_error := if error_msg ≠ "" then error_msg else r.download_error }
    else r)

/-- CoverDownloader.update_cover_status: mask rows by id, set
cover_downloaded, and set cover_path only when file_path is truthy. -/
def update_cover_status (df : List Record) (book_id status file_path : String) : List Record :=
  df.map (fun r =>
    if r.id = book_id then
      { r with
        cover_downloaded := status,
        cover_path := if file_path ≠ "" then file_path else r.cover_path }
    else r)

/-- EnhancedDownloadManager._update_download_status in download_enhanced.py:
a whole-column write over the CSV read back from disk (no per-row mask). -/
def updateDownloadStatus (df : List Record) (download_type : String) (success : Bool) :
    List Record :=
  if download_type = "file" then
    if success then
      df.map (fun r => { r with file_downloaded := "YES", download_status := "SUCCESS" })
    else
      df.map (fun r => { r with download_status := "FAILED" })
  else if download_type = "cover" then
    if success then df.map (fun r => { r with cover_downloaded := "YES" }) else df
  else df

/-- The rows download_files_with_rotation iterates over:
df[df['file_downloaded'] != 'YES']. -/
def pendingFiles (df : List Record) : List Record :=
  df.filter (fun r => r.file_downloaded != "YES")

/-- The rows download_covers_with_tracking iterates over:
df[df['cover_downloaded'] != 'YES']. -/
def pendingCovers (df : List Record) : List Record :=
  df.filter (fun r => r.cover_downloaded != "YES")

-- ===== filesystem model =====

/-- The on-disk state: a map from path to file size in bytes. -/
abbrev FS := List (String × Nat)

def fsExists (fs : FS) (p : String) : Bool :=
  fs.any (fun e => e.fst = p)

def fsSize (fs : FS) (p : String) : Option Nat :=
  (fs.find? (fun e => e.fst = p)).map (fun e => e.snd)

def fsWrite (fs : FS) (p : String) (sz : Nat) : FS :=
  (p, sz) :: fs.filter (fun e => e.fst != p)

def fsRemove (fs : FS) (p : String) : FS :=
  fs.filter (fun e => e.fst != p)

/-- Observable filesystem actions of one download attempt (the code has no
rename: the constructor is present so its absence is expressible). -/
inductive FsEvent where
  | write (path : String) (size : Nat)
  | remove (path : String)
  | rename (src dst : String)
deriving DecidableEq, Repr

-- ===== HTTP model =====

/-- Result of session.get on a download URL: a response, a timeout, or
another exception. The status code, content-type and content-length
headers, and the streamed body size are explicit. -/
inductive NetResult where
  | ok (status : Nat) (contentType : String) (contentLength : Nat) (bodySize : Nat)
  | timeout
  | error (msg : String)
deriving DecidableEq, Repr

structure DLResult where
  success : Bool
  status : String
  fs : FS
  events : List FsEvent
deriving DecidableEq, Repr

/-- EnhancedFileDownloader.download_file (download_files.py lines 93-149):
empty URL short-circuit, already-exists skip, HTML error-page check,
direct write to the final path, then the size-bounds check with removal. -/
def download_file (fs : FS) (url title author ext : String) (net : NetResult) : DLResult :=
  if url = "" then ⟨false, "NO_DOWNLOAD_URL", fs, []⟩
  else
    let filepath := filePathOf title author ext
    if fsExists fs filepath then ⟨true, "ALREADY_EXISTS", fs, []⟩
    else
      match net with
      | NetResult.timeout => ⟨false, "TIMEOUT", fs, []⟩
      | NetResult.error m => ⟨false, "ERROR_" ++ m, fs, []⟩
      | NetResult.ok status contentType contentLength bodySize =>
        if status = 200 then
          if strContains contentType "text/html" ∧ contentLength < 10000 then
            ⟨false, "HTML_ERROR_PAGE", fs, []⟩
          else
            let fs1 := fsWrite fs filepath bodySize
            if bodySize < MIN_FILE_SIZE then
              ⟨false, "FILE_TOO_SMALL", fsRemove fs1 filepath,
               [FsEvent.write filepath bodySize, FsEvent.remove filepath]⟩
            else if MAX_FILE_SIZE < bodySize then
              ⟨false, "FILE_TOO_LARGE", fsRemove fs1 filepath,
               [FsEvent.write filepath bodySize, FsEvent.remove filepath]⟩
            else
              ⟨true, "SUCCESS", fs1, [FsEvent.write filepath bodySize]⟩
        else ⟨false, "HTTP_" ++ toString status, fs, []⟩

/-- The per-item retry loop of download_files_with_rotation (lines 205-214):
`for attempt in range(max_retries)` with a break on success. Returns the
last attempt's result (events accumulated) and the number of attempts made.
The attempt counter indexes the environment's response sequence. -/
def attemptLoopAux (url title author ext : String) (net : Nat → NetResult) :
    FS → Nat → Nat → List FsEvent → DLResult × Nat
  | fs, 0, att, evs => (⟨false, "", fs, evs⟩, att)
  | fs, k + 1, att, evs =>
    if (download_file fs url title author ext (net att)).success then
      (⟨true, (download_file fs url title author ext (net att)).status,
        (download_file fs url title author ext (net att)).fs,
        evs ++ (download_file fs url title author ext (net att)).events⟩, att + 1)
    else if k = 0 then
      (⟨false, (download_file fs url title author ext (net att)).status,
        (download_file fs url title author ext (net att)).fs,
        evs ++ (download_file fs url title author ext (net att)).events⟩, att + 1)
    else
      attemptLoopAux url title author ext net
        (download_file fs url title author ext (net att)).fs k (att + 1)
        (evs ++ (download_file fs url title author ext (net att)).events)

def attemptLoop (fs : FS) (url title author ext : String) (net : Nat → NetResult)
    (maxRetries : Nat) : DLResult × Nat :=
  attemptLoopAux url title author ext net fs maxRetries 0 []

-- ===== session acquisition and account rotation =====

/-- The `for i in range(n)` scan of get_available_session over the other
account indexes: first i ≠ cur (counting up from i) that authenticates. -/
def firstOtherAuth (auth : Nat → Bool) (cur : Nat) : Nat → Nat → Option Nat
  | _, 0 => none
  | i, k + 1 => if i ≠ cur ∧ auth i then some i else firstOtherAuth auth cur (i + 1) k

/-- EnhancedFileDownloader.get_available_session (download_files.py lines
58-73): try the current account index, then every other index in order.
Authentication success is the environment predicate `auth`; no quota or
usage counter is consulted anywhere in this code path. -/
def get_available_session (auth : Nat → Bool) (cur n : Nat) : Option Nat :=
  if auth cur then some cur else firstOtherAuth auth cur 0 n

/-- The `for _ in range(len(ZLIBRARY_ACCOUNTS))` loop of rotate_account:
repeatedly advance the index by one modulo n and return the first index
that authenticates. -/
def rotateFrom (auth : Nat → Bool) (n : Nat) : Nat → Nat → Option Nat
  | _, 0 => none
  | cur, k + 1 =>
    if auth ((cur + 1) % n) then some ((cur + 1) % n)
    else rotateFrom auth n ((cur + 1) % n) k

/-- EnhancedFileDownloader.rotate_account (download_files.py lines 75-91):
resets the download and failure counters (done by the caller model) and
round-robins over all n indexes starting after the current one; the scan
wraps, so after n steps it has also tried the current index itself. -/
def rotate_account (auth : Nat → Bool) (cur n : Nat) : Option Nat :=
  rotateFrom auth n cur n

-- ===== the download_files_with_rotation run =====

/-- The run environment: which account indexes authenticate, the network
response for each book id and attempt number, and the two rotation
thresholds. download_files.py reads ROTATION_INTERVAL and
MAX_CONSECUTIVE_ERRORS, names defined nowhere in the repository
(config.py defines ROTATE_AFTER_DOWNLOADS = 10 and ROTATE_AFTER_FAILURES
= 3 instead), so the thresholds are kept as parameters here. -/
structure Env where
  auth : Nat → Bool
  net : String → Nat → NetResult
  rotationInterval : Nat
  maxConsecErrors : Nat

structure DLState where
  fs : FS
  df : List Record
  accounts : List Account
  currentAccount : Nat
  downloadCount : Nat
  failureCount : Nat
  stopped : Bool
deriving Repr

def emailOf (accounts : List Account) (i : Nat) : String :=
  ((accounts.get? i).map (fun a => a.email)).getD ""

/-- The rotation check at the top of each loop iteration (download_files.py
lines 197-203): when a counter has hit its threshold, call rotate_account
(which resets both counters first) and either switch account or break. -/
def maybeRotate (env : Env) (st : DLState) : DLState :=
  if env.rotationInterval ≤ st.downloadCount ∨ env.maxConsecErrors ≤ st.failureCount then
    match rotate_account env.auth st.currentAccount st.accounts.length with
    | some i => { st with currentAccount := i, downloadCount := 0, failureCount := 0 }
    | none => { st with stopped := true, downloadCount := 0, failureCount := 0 }
  else st

/-- One iteration of the `for idx, row in pending_files.iterrows()` loop in
download_files_with_rotation (lines 190-238): maybe rotate (break when no
account is left), run the retry loop, then write the outcome row to the
CSV and bump a counter. -/
def runStep (env : Env) (maxRetries : Nat) (st : DLState) (row : Record) : DLState :=
  if st.stopped then st
  else if (maybeRotate env st).stopped then maybeRotate env st
  else if (attemptLoop (maybeRotate env st).fs row.download_url row.title row.author
            row.extension (env.net row.id) maxRetries).fst.success then
    { maybeRotate env st with
      fs := (attemptLoop (maybeRotate env st).fs row.download_url row.title row.author
              row.extension (env.net row.id) maxRetries).fst.fs,
      df := update_file_status (maybeRotate env st).df row.id "YES"
              (emailOf (maybeRotate env st).accounts (maybeRotate env st).currentAccount) "",
      downloadCount := (maybeRotate env st).downloadCount + 1 }
  else
    { maybeRotate env st with
      fs := (attemptLoop (maybeRotate env st).fs row.download_url row.title row.author
              row.extension (env.net row.id) maxRetries).fst.fs,
      df := update_file_status (maybeRotate env st).df row.id "FAILED" ""
              (attemptLoop (maybeRotate env st).fs row.download_url row.title row.author
                row.extension (env.net row.id) maxRetries).fst.status,
      failureCount := (maybeRotate env st).failureCount + 1 }

/-- EnhancedFileDownloader.download_files_with_rotation: read the CSV,
freeze the pending list, get an initial session (return untouched if none),
then fold the per-item step over the pending rows. -/
def download_files_with_rotation (env : Env) (maxRetries : Nat) (fs0 : FS)
    (df : List Record) (accounts : List Account) : DLState :=
  match get_available_session env.auth 0 accounts.length with
  | none => ⟨fs0, df, accounts, 0, 0, 0, false⟩
  | some i => (pendingFiles df).foldl (runStep env maxRetries) ⟨fs0, df, accounts, i, 0, 0, false⟩

-- ===== download_covers.py =====

/-- Result of session.get on a cover URL: response status with content
size, a timeout, or another exception. -/
inductive CoverNet where
  | ok (status : Nat) (contentSize : Nat)
  | timeout
  | error (msg : String)
deriving DecidableEq, Repr

structure CoverState where
  fs : FS
  df : List Record
deriving Repr

/-- The `for attempt in range(max_retries)` loop of
download_covers_with_tracking (lines 128-165): on HTTP 200 with more than
1000 bytes, write the file, record YES and break; on a timeout or other
exception, record TIMEOUT / ERROR only when this is the last attempt; on
any other response (non-200 status or undersized body) only print and
continue - no CSV update, on the last attempt included. -/
def coverAttempts (net : Nat → CoverNet) (book_id filepath : String) :
    FS → List Record → Nat → Nat → FS × List Record × Bool
  | fs, df, 0, _ => (fs, df, false)
  | fs, df, k + 1, att =>
    match net att with
    | CoverNet.ok status contentSize =>
      if status = 200 ∧ 1000 < contentSize then
        (fsWrite fs filepath contentSize, update_cover_status df book_id "YES" filepath, true)
      else coverAttempts net book_id filepath fs df k (att + 1)
    | CoverNet.timeout =>
      let df1 := if k = 0 then update_cover_status df book_id "TIMEOUT" "" else df
      coverAttempts net book_id filepath fs df1 k (att + 1)
    | CoverNet.error m =>
      let df1 := if k = 0 then update_cover_status df book_id "ERROR" m else df
      coverAttempts net book_id filepath fs df1 k (att + 1)

/-- One iteration of the per-row loop in download_covers_with_tracking
(lines 101-165): missing URL is recorded as NO_URL, an existing file as
YES, otherwise the retry loop runs. -/
def coverItemStep (net : String → Nat → CoverNet) (maxRetries : Nat)
    (st : CoverState) (row : Record) : CoverState :=
  if row.cover_url = "" then
    { st with df := update_cover_status st.df row.id "NO_URL" "" }
  else
    let fp := coverPathOf row.title row.author row.cover_url
    if fsExists st.fs fp then
      { st with df := update_cover_status st.df row.id "YES" fp }
    else
      let r := coverAttempts (net row.id) row.id fp st.fs st.df maxRetries 0
      { st with fs := r.fst, df := r.snd.fst }

/-- CoverDownloader.download_covers_with_tracking: fold the per-row step
over the rows not yet marked YES. -/
def download_covers_with_tracking (net : String → Nat → CoverNet) (maxRetries : Nat)
    (fs0 : FS) (df : List Record) : CoverState :=
  (pendingCovers df).foldl (coverItemStep net maxRetries) ⟨fs0, df⟩

-- ===== download_enhanced.py =====

/-- EnhancedDownloadManager.download_book_async: skip when the target path
(built by config.get_file_path) exists, otherwise delegate to
zlibrary.download, modelled by the environment pair zlibDL (success) and
zlibSize (bytes it writes on success). -/
def get_file_path (title author ext : String) : String :=
  filesDir ++ "/" ++ sanitize_filename (title ++ " - " ++ author) ++ "." ++ ext

def download_book_async (zlibDL : String → Bool) (zlibSize : String → Nat)
    (fs : FS) (r : Record) : Bool × FS :=
  let fp := get_file_path r.title r.author r.extension
  if fsExists fs fp then (true, fs)
  else if zlibDL r.id then (true, fsWrite fs fp (zlibSize r.id))
  else (false, fs)

/-- EnhancedDownloadManager.download_books_batch_async (lines 136-185):
filter the pending rows, attempt each, then make the single whole-CSV
status write with success = (success_count > 0). The returned list is the
CSV persisted by _update_download_status (the input df stands for the CSV
on disk, which the surrounding code has just written). -/
def download_books_batch_async (zlibDL : String → Bool) (zlibSize : String → Nat)
    (fs : FS) (df : List Record) : List Record × FS :=
  let pending := pendingFiles df
  if pending.length = 0 then (df, fs)
  else
    let step := fun (acc : FS × Nat) (r : Record) =>
      let res := download_book_async zlibDL zlibSize acc.fst r
      (res.snd, acc.snd + (if res.fst then 1 else 0))
    let final := pending.foldl step (fs, 0)
    (updateDownloadStatus df "file" (0 < final.snd), final.fst)

-- ===== generic helper lemmas =====

theorem get?_map_eq {α β : Type} (f : α → β) (l : List α) (i : Nat) :
    (l.map f).get? i = (l.get? i).map f := by
  induction l generalizing i with
  | nil => cases i <;> rfl
  | cons a t ih => cases i with
    | zero => rfl
    | succ j => exact ih j

theorem update_file_status_frame (df : List Record) (book_id status email err : String)
    (i : Nat) (r : Record) (hi : df.get? i = some r) (hne : r.id ≠ book_id) :
    (update_file_status df book_id status email err).get? i = some r := by
  unfold update_file_status
  rw [get?_map_eq, hi]
  simp [hne]

theorem update_cover_status_frame (df : List Record) (book_id status path : String)
    (i : Nat) (r : Record) (hi : df.get? i = some r) (hne : r.id ≠ book_id) :
    (update_cover_status df book_id status path).get? i = some r := by
  unfold update_cover_status
  rw [get?_map_eq, hi]
  simp [hne]

theorem fsExists_fsWrite (fs : FS) (p : String) (sz : Nat) :
    fsExists (fsWrite fs p sz) p = true := by
  simp [fsExists, fsWrite]

theorem fsSize_fsWrite (fs : FS) (p : String) (sz : Nat) :
    fsSize (fsWrite fs p sz) p = some sz := by
  unfold fsSize fsWrite
  rw [List.find?_cons_of_pos _ (by simp)]
  rfl

theorem fsExists_fsRemove (fs : FS) (p : String) :
    fsExists (fsRemove fs p) p = false := by
  simp [fsRemove, fsExists, List.any_filter]

-- ===== lemmas about the sanitizer pipeline (config.sanitize_filename) =====

theorem replace_foldl_mem : ∀ (cs s : List Char) (x : Char),
    x ∈ cs.foldl (fun acc c => acc.map (fun y => if y = c then '_' else y)) s →
    x = '_' ∨ (x ∈ s ∧ x ∉ cs) := by
  intro cs
  induction cs with
  | nil => intro s x h; exact Or.inr ⟨h, by simp⟩
  | cons c cs ih =>
    intro s x h
    rw [List.foldl_cons] at h
    rcases ih _ x h with h1 | ⟨hm, hcs⟩
    · exact Or.inl h1
    · rcases List.mem_map.mp hm with ⟨y, hy, hyx⟩
      by_cases hyc : y = c
      · subst hyc; rw [if_pos rfl] at hyx; exact Or.inl hyx.symm
      · rw [if_neg hyc] at hyx
        subst hyx
        exact Or.inr ⟨hy, by simp [hyc, hcs]⟩

theorem removeInvalidChars_ok (s : List Char) (x : Char) (h : x ∈ removeInvalidChars s) :
    x ∉ INVALID_FILENAME_CHARS := by
  rcases replace_foldl_mem INVALID_FILENAME_CHARS s x h with h1 | ⟨_, h2⟩
  · subst h1; decide
  · exact h2

theorem splitWs_subset : ∀ (s g : List Char), g ∈ splitWs s → ∀ x ∈ g, x ∈ s := by
  intro s
  induction s with
  | nil => intro g hg; simp [splitWs] at hg
  | cons c cs ih =>
    intro g hg x hx
    by_cases hsp : isPySpace c = true
    · rw [splitWs, if_pos hsp] at hg
      exact List.mem_cons_of_mem _ (ih g hg x hx)
    · rw [splitWs, if_neg hsp] at hg
      cases hcs : cs with
      | nil =>
        subst hcs
        simp only [splitWs, consGroup, List.mem_singleton] at hg
        subst hg
        simp only [List.mem_singleton] at hx
        subst hx
        exact List.mem_cons_self _ _
      | cons d ds =>
        subst hcs
        cases hsw : splitWs (d :: ds) with
        | nil =>
          rw [hsw] at hg
          simp only [consGroup, List.mem_singleton] at hg
          subst hg
          simp only [List.mem_singleton] at hx
          subst hx
          exact List.mem_cons_self _ _
        | cons g1 gs =>
          rw [hsw] at hg
          by_cases hd : isPySpace d = true
          · simp only [consGroup, if_pos hd] at hg
            rcases List.mem_cons.mp hg with hg | hg
            · subst hg
              simp only [List.mem_singleton] at hx
              subst hx
              exact List.mem_cons_self _ _
            · have hgmem : g ∈ splitWs (d :: ds) := by rw [hsw]; exact hg
              exact List.mem_cons_of_mem _ (ih g hgmem x hx)
          · simp only [consGroup, if_neg hd] at hg
            rcases List.mem_cons.mp hg with hg | hg
            · subst hg
              rcases List.mem_cons.mp hx with hx | hx
              · subst hx; exact List.mem_cons_self _ _
              · have hg1 : g1 ∈ splitWs (d :: ds) := by
                  rw [hsw]; exact List.mem_cons_self _ _
                exact List.mem_cons_of_mem _ (ih g1 hg1 x hx)
            · have hgmem : g ∈ splitWs (d :: ds) := by
                rw [hsw]; exact List.mem_cons_of_mem _ hg
              exact List.mem_cons_of_mem _ (ih g hgmem x hx)

theorem joinSpace_mem : ∀ (gs : List (List Char)) (x : Char), x ∈ joinSpace gs →
    x = ' ' ∨ ∃ g, g ∈ gs ∧ x ∈ g := by
  intro gs
  induction gs with
  | nil => intro x hx; simp [joinSpace] at hx
  | cons g gs ih =>
    intro x hx
    cases gs with
    | nil =>
      right
      exact ⟨g, List.mem_cons_self _ _, by simpa [joinSpace] using hx⟩
    | cons g2 gs2 =>
      simp only [joinSpace] at hx
      rcases List.mem_append.mp hx with h | h
      · exact Or.inr ⟨g, List.mem_cons_self _ _, h⟩
      · rcases List.mem_cons.mp h with h | h
        · exact Or.inl h
        · rcases ih x h with h1 | ⟨g3, hg3, hx3⟩
          · exact Or.inl h1
          · exact Or.inr ⟨g3, List.mem_cons_of_mem _ hg3, hx3⟩

theorem hyphenate_mem (s : List Char) (c : Char) (h : c ∈ hyphenate s) :
    c ≠ ' ' ∧ (c = '-' ∨ c ∈ s) := by
  unfold hyphenate at h
  rcases List.mem_map.mp h with ⟨y, hy, hyc⟩
  by_cases hys : y = ' '
  · rw [if_pos hys] at hyc
    subst hyc
    exact ⟨by decide, Or.inl rfl⟩
  · rw [if_neg hys] at hyc
    subst hyc
    exact ⟨hys, Or.inr hy⟩

theorem sanitizeChars_mem (s : List Char) (c : Char) (h : c ∈ sanitizeChars s) :
    c ∈ hyphenate (joinSpace (splitWs (removeInvalidChars s))) := by
  unfold sanitizeChars at h
  split at h
  · exact List.take_subset _ _ h
  · exact h

theorem sanitizeChars_length (s : List Char) : (sanitizeChars s).length ≤ 160 := by
  unfold sanitizeChars
  split
  · simp only [MAX_FILENAME_LENGTH, List.length_take]
    omega
  · rename_i hlen
    simp only [MAX_FILENAME_LENGTH, not_lt] at hlen
    exact hlen

-- ===== claim C10 =====

/-- C10 (confirmed): for every input string, config.sanitize_filename
returns a string of length at most MAX_FILENAME_LENGTH = 160 that
contains none of the characters < > : " / \ | ? * and no space. -/
theorem c10_sanitize_filename_safe (s : String) :
    (sanitize_filename s).length ≤ 160 ∧
    ∀ c ∈ (sanitize_filename s).toList, c ∉ INVALID_FILENAME_CHARS ∧ c ≠ ' ' := by
  constructor
  · exact sanitizeChars_length s.toList
  · intro c hc
    have hc1 : c ∈ sanitizeChars s.toList := hc
    have hc2 := sanitizeChars_mem _ _ hc1
    obtain ⟨hne, hor⟩ := hyphenate_mem _ _ hc2
    refine ⟨?_, hne⟩
    rcases hor with h | h
    · subst h; decide
    · rcases joinSpace_mem _ _ h with h1 | ⟨g, hg, hcg⟩
      · exact absurd h1 hne
      · exact removeInvalidChars_ok _ _ (splitWs_subset _ g hg c hcg)

/-- Witness for C10 at a concrete input. -/
theorem c10_witness :
    ((sanitize_filename "a b<").length ≤ 160) ∧
    ('a' ∉ INVALID_FILENAME_CHARS ∧ 'a' ≠ ' ') :=
  ⟨(c10_sanitize_filename_safe "a b<").1,
   (c10_sanitize_filename_safe "a b<").2 'a' (by decide)⟩

-- ===== claim C8 =====

/-- C8 (confirmed): when a fresh download (non-empty URL, target absent,
HTTP 200, not the HTML-error-page case) yields a body whose size is below
MIN_FILE_SIZE or above MAX_FILE_SIZE, the written file is removed before
download_file returns, and the attempt fails with the specific reason
FILE_TOO_SMALL respectively FILE_TOO_LARGE. -/
theorem c8_size_bounds (fs : FS) (url title author ext contentType : String)
    (contentLength bodySize : Nat)
    (hurl : url ≠ "")
    (hex : fsExists fs (filePathOf title author ext) = false)
    (hhtml : ¬(strContains contentType "text/html" = true ∧ contentLength < 10000))
    (hout : bodySize < MIN_FILE_SIZE ∨ MAX_FILE_SIZE < bodySize) :
    (download_file fs url title author ext
        (NetResult.ok 200 contentType contentLength bodySize)).success = false ∧
    fsExists (download_file fs url title author ext
        (NetResult.ok 200 contentType contentLength bodySize)).fs
        (filePathOf title author ext) = false ∧
    (download_file fs url title author ext
        (NetResult.ok 200 contentType contentLength bodySize)).status =
      (if bodySize < MIN_FILE_SIZE then "FILE_TOO_SMALL" else "FILE_TOO_LARGE") := by
  simp only [download_file]
  rw [if_neg hurl, if_neg (by simp [hex]), if_pos trivial, if_neg hhtml]
  rcases hout with h | h
  · simp only [if_pos h]
    exact ⟨trivial, fsExists_fsRemove _ _, trivial⟩
  · have hns : ¬ bodySize < MIN_FILE_SIZE := by
      simp only [MIN_FILE_SIZE, MAX_FILE_SIZE] at h ⊢
      omega
    simp only [if_neg hns, if_pos h]
    exact ⟨trivial, fsExists_fsRemove _ _, trivial⟩

/-- Witness for C8 at a concrete undersized download. -/
theorem c8_witness :
    ("u" ≠ "" ∧ fsExists [] (filePathOf "T" "A" "pdf") = false ∧
      ¬(strContains "application/pdf" "text/html" = true ∧ 20000 < 10000) ∧
      (10 < MIN_FILE_SIZE ∨ MAX_FILE_SIZE < 10)) ∧
    (download_file [] "u" "T" "A" "pdf"
        (NetResult.ok 200 "application/pdf" 20000 10)).success = false ∧
    fsExists (download_file [] "u" "T" "A" "pdf"
        (NetResult.ok 200 "application/pdf" 20000 10)).fs
        (filePathOf "T" "A" "pdf") = false ∧
    (download_file [] "u" "T" "A" "pdf"
        (NetResult.ok 200 "application/pdf" 20000 10)).status =
      (if 10 < MIN_FILE_SIZE then "FILE_TOO_SMALL" else "FILE_TOO_LARGE") :=
  ⟨⟨by decide, by decide, by decide, Or.inl (by decide)⟩,
   c8_size_bounds [] "u" "T" "A" "pdf" "application/pdf" 20000 10
     (by decide) (by decide) (by decide) (Or.inl (by decide))⟩

-- ===== claim C1 =====

/-- C1 (corrected, amended): the per-identifier ledger writes
update_file_status and update_cover_status change only the row(s) whose id
equals the given identifier; every other row keeps all its fields.
(The batch-level _update_download_status write is not per-identifier and
overwrites columns of every row; see the counterexample.) -/
theorem c1_per_id_updates_frame (df : List Record)
    (book_id status email err cstatus cpath : String) (i : Nat) (r : Record)
    (hi : df.get? i = some r) (hne : r.id ≠ book_id) :
    (update_file_status df book_id status email err).get? i = some r ∧
    (update_cover_status df book_id cstatus cpath).get? i = some r :=
  ⟨update_file_status_frame df book_id status email err i r hi hne,
   update_cover_status_frame df book_id cstatus cpath i r hi hne⟩

def c1wB : Record := ⟨"B", "", "", "", "", "", "YES", "", "", "", "", ""⟩

def c1wdf : List Record := [⟨"A", "", "", "", "", "", "NO", "", "", "", "", ""⟩, c1wB]

/-- Witness for C1 at a concrete ledger. -/
theorem c1_witness :
    (update_file_status c1wdf "A" "YES" "e" "").get? 1 = some c1wB ∧
    (update_cover_status c1wdf "A" "YES" "p").get? 1 = some c1wB :=
  c1_per_id_updates_frame c1wdf "A" "YES" "e" "" "YES" "p" 1 c1wB (by decide) (by decide)

def c1rowA : Record := ⟨"A", "T", "A", "pdf", "http://u", "", "NO", "", "", "", "", ""⟩

def c1rowB : Record := ⟨"B", "T2", "A2", "pdf", "http://u2", "", "YES", "acct", "", "", "", ""⟩

def c1df : List Record := [c1rowA, c1rowB]

def c1zlibDL : String → Bool := fun _ => true

def c1zlibSize : String → Nat := fun _ => 5000

/-- C1 counterexample: a batch of download_enhanced.py with exactly one
pending item (id A) that succeeds also rewrites the row of the unrelated
id B - its download_status column is overwritten - so a ledger update
recording one item's outcome changes another item's record. -/
theorem c1_counterexample :
    pendingFiles c1df = [c1rowA] ∧
    c1df.get? 1 = some c1rowB ∧
    c1rowB.id ≠ c1rowA.id ∧
    (download_books_batch_async c1zlibDL c1zlibSize [] c1df).fst.get? 1 ≠ some c1rowB := by
  exact ⟨by decide, by decide, by decide, by decide⟩

-- ===== claim C2 =====

theorem maybeRotate_accounts (env : Env) (st : DLState) :
    (maybeRotate env st).accounts = st.accounts := by
  unfold maybeRotate
  split
  · split <;> rfl
  · rfl

theorem runStep_accounts (env : Env) (mr : Nat) (st : DLState) (row : Record) :
    (runStep env mr st row).accounts = st.accounts := by
  unfold runStep
  split
  · rfl
  · split
    · exact maybeRotate_accounts env st
    · split <;> simpa using maybeRotate_accounts env st

theorem foldl_runStep_accounts (env : Env) (mr : Nat) :
    ∀ (l : List Record) (st : DLState), (l.foldl (runStep env mr) st).accounts = st.accounts := by
  intro l
  induction l with
  | nil => intro st; rfl
  | cons p t ih => intro st; rw [List.foldl_cons, ih, runStep_accounts]

theorem run_accounts (env : Env) (mr : Nat) (fs0 : FS) (df : List Record)
    (accounts : List Account) :
    (download_files_with_rotation env mr fs0 df accounts).accounts = accounts := by
  unfold download_files_with_rotation
  split
  · rfl
  · rw [foldl_runStep_accounts]

theorem firstOtherAuth_sound (auth : Nat → Bool) (cur : Nat) :
    ∀ (k i j : Nat), firstOtherAuth auth cur i k = some j → auth j = true := by
  intro k
  induction k with
  | zero => intro i j h; simp [firstOtherAuth] at h
  | succ k ih =>
    intro i j h
    rw [firstOtherAuth] at h
    split at h
    · rename_i hcond
      cases h
      exact hcond.2
    · exact ih (i + 1) j h

theorem get_available_session_auth (auth : Nat → Bool) (cur n i : Nat)
    (h : get_available_session auth cur n = some i) : auth i = true := by
  unfold get_available_session at h
  split at h
  · rename_i hc
    cases h
    exact hc
  · exact firstOtherAuth_sound auth cur n 0 i h

/-- C2 (corrected, amended): a run of download_files_with_rotation never
mutates the account list, so every identity's daily usage counter keeps
its initial value and stays within quota whenever it starts within quota;
but session acquisition consults only authentication success, never the
quota: whatever the counters are, get_available_session returns any index
that authenticates. -/
theorem c2_quota_amended (env : Env) (maxRetries : Nat) (fs0 : FS)
    (df : List Record) (accounts : List Account)
    (h : ∀ a ∈ accounts, a.daily_downloads ≤ a.max_daily_downloads) :
    (∀ a ∈ (download_files_with_rotation env maxRetries fs0 df accounts).accounts,
      a.daily_downloads ≤ a.max_daily_downloads) ∧
    (∀ auth cur n i, get_available_session auth cur n = some i → auth i = true) := by
  constructor
  · rw [run_accounts]
    exact h
  · intro auth cur n i hi
    exact get_available_session_auth auth cur n i hi

def c2wenv : Env := ⟨fun _ => true, fun _ _ => NetResult.timeout, 10, 3⟩

def c2wauth : Nat → Bool := fun _ => true

/-- Witness for C2 at a concrete run. -/
theorem c2_witness : c2wauth 0 = true :=
  (c2_quota_amended c2wenv 3 [] [] ZLIBRARY_ACCOUNTS (by decide)).2 c2wauth 0 3 0 (by decide)

def c2atQuota : List Account :=
  [⟨"e1", "p", 10, 10⟩, ⟨"e2", "p", 10, 10⟩, ⟨"e3", "p", 10, 10⟩]

def c2cexAuth : Nat → Bool := fun _ => true

/-- C2 counterexample: with every identity exactly at its quota,
get_available_session still returns an identity (index 0) rather than
none-available, because the code never reads the usage counters. -/
theorem c2_counterexample :
    c2atQuota.all (fun a => a.max_daily_downloads ≤ a.daily_downloads) = true ∧
    get_available_session c2cexAuth 0 c2atQuota.length = some 0 := by
  exact ⟨by decide, by decide⟩

-- ===== claim C6 =====

theorem attemptLoopAux_fail_count (url title author ext : String) (net : Nat → NetResult) :
    ∀ (k : Nat) (fs : FS) (att : Nat) (evs : List FsEvent),
      (attemptLoopAux url title author ext net fs k att evs).fst.success = false →
      (attemptLoopAux url title author ext net fs k att evs).snd = att + k := by
  intro k
  induction k with
  | zero => intro fs att evs _; rfl
  | succ k ih =>
    intro fs att evs h
    by_cases hs : (download_file fs url title author ext (net att)).success = true
    · rw [attemptLoopAux, if_pos hs] at h
      simp at h
    · by_cases hk : k = 0
      · subst hk
        rw [attemptLoopAux, if_neg hs, if_pos rfl]
      · rw [attemptLoopAux, if_neg hs, if_neg hk] at h ⊢
        rw [ih _ _ _ h]
        omega

/-- C6 (corrected, amended): the retry loop of download_files.py performs
no outcome classification at all: whenever all attempts fail - permanent
outcomes such as an HTTP 404 response or a missing download URL included -
the item is attempted exactly max_retries times, never aborted after the
first attempt. -/
theorem c6_no_retry_classification (fs : FS) (url title author ext : String)
    (net : Nat → NetResult) (maxRetries : Nat)
    (h : (attemptLoop fs url title author ext net maxRetries).fst.success = false) :
    (attemptLoop fs url title author ext net maxRetries).snd = maxRetries := by
  unfold attemptLoop at h ⊢
  rw [attemptLoopAux_fail_count url title author ext net maxRetries fs 0 [] h]
  omega

def c6wnet : Nat → NetResult := fun _ => NetResult.ok 404 "" 0 0

/-- Witness for C6 at a concrete always-404 environment. -/
theorem c6_witness : (attemptLoop [] "http://u" "T" "A" "pdf" c6wnet 3).snd = 3 :=
  c6_no_retry_classification [] "http://u" "T" "A" "pdf" c6wnet 3 (by decide)

def c6cexNet : Nat → NetResult := fun _ => NetResult.ok 404 "text/html" 500 0

/-- C6 counterexample: a 404-class outcome, and likewise a missing download
URL, is retried until the attempt budget is spent: three attempts are made
with max_retries = 3, not one. -/
theorem c6_counterexample :
    (attemptLoop [] "http://u" "T" "A" "pdf" c6cexNet 3).fst.status = "HTTP_404" ∧
    (attemptLoop [] "http://u" "T" "A" "pdf" c6cexNet 3).snd = 3 ∧
    (attemptLoop [] "" "T" "A" "pdf" c6cexNet 3).fst.status = "NO_DOWNLOAD_URL" ∧
    (attemptLoop [] "" "T" "A" "pdf" c6cexNet 3).snd = 3 ∧
    (3 : Nat) ≠ 1 := by
  exact ⟨by decide, by decide, by decide, by decide, by decide⟩

-- ===== claim C9 =====

theorem mod_shift (cur t n : Nat) : ((cur + 1) % n + t + 1) % n = (cur + t + 2) % n := by
  conv_lhs => rw [Nat.add_assoc]
  rw [Nat.mod_add_mod]
  congr 1
  omega

theorem rotateFrom_sound (auth : Nat → Bool) (n : Nat) :
    ∀ (k cur i : Nat), rotateFrom auth n cur k = some i →
      auth i = true ∧ ∃ m, m < k ∧ i = (cur + m + 1) % n ∧
        ∀ m', m' < m → auth ((cur + m' + 1) % n) = false := by
  intro k
  induction k with
  | zero => intro cur i h; simp [rotateFrom] at h
  | succ k ih =>
    intro cur i h
    rw [rotateFrom] at h
    split at h
    · rename_i ha
      cases h
      refine ⟨ha, 0, Nat.succ_pos k, by simp, ?_⟩
      intro m' hm'
      exact absurd hm' (Nat.not_lt_zero m')
    · rename_i ha
      simp only [Bool.not_eq_true] at ha
      obtain ⟨hai, m, hmk, him, hmin⟩ := ih ((cur + 1) % n) i h
      refine ⟨hai, m + 1, Nat.succ_lt_succ hmk, ?_, ?_⟩
      · rw [him, mod_shift]
        congr 1
      · intro m' hm'
        cases m' with
        | zero =>
          simpa using ha
        | succ t =>
          have ht := hmin t (Nat.lt_of_succ_lt_succ hm')
          rw [mod_shift] at ht
          have harith : cur + (t + 1) + 1 = cur + t + 2 := by omega
          rw [harith]
          exact ht

theorem rotateFrom_some (auth : Nat → Bool) (n : Nat) :
    ∀ (k cur : Nat), (∃ m, m < k ∧ auth ((cur + m + 1) % n) = true) →
      ∃ i, rotateFrom auth n cur k = some i := by
  intro k
  induction k with
  | zero =>
    intro cur h
    obtain ⟨m, hm, _⟩ := h
    exact absurd hm (Nat.not_lt_zero m)
  | succ k ih =>
    intro cur h
    obtain ⟨m, hmk, ham⟩ := h
    by_cases h1 : auth ((cur + 1) % n) = true
    · exact ⟨(cur + 1) % n, by rw [rotateFrom, if_pos h1]⟩
    · cases m with
      | zero => exact absurd (by simpa using ham) h1
      | succ t =>
        have harith : cur + (t + 1) + 1 = cur + t + 2 := by omega
        rw [harith] at ham
        obtain ⟨i, hi⟩ := ih ((cur + 1) % n)
          ⟨t, Nat.lt_of_succ_lt_succ hmk, by rw [mod_shift]; exact ham⟩
        exact ⟨i, by rw [rotateFrom, if_neg h1]; exact hi⟩

/-- C9 (corrected, amended): rotate_account returns the first identity in
round-robin order after the current one that authenticates; whenever some
other identity authenticates, the returned identity differs from the
current (threshold-hitting) one. When the current identity is the only
one that authenticates, the scan wraps around and returns it again (see
the counterexample), and when none authenticates it returns none. -/
theorem c9_rotate_amended (auth : Nat → Bool) (n cur j : Nat)
    (hcur : cur < n) (hj : j < n) (hjne : j ≠ cur) (hja : auth j = true) :
    (rotate_account auth cur n).isSome = true ∧
    (rotate_account auth cur n).getD cur ≠ cur ∧
    auth ((rotate_account auth cur n).getD cur) = true := by
  have key : ∃ m, m + 2 ≤ n ∧ (cur + m + 1) % n = j := by
    rcases Nat.lt_or_ge cur j with hlt | hge
    · refine ⟨j - cur - 1, by omega, ?_⟩
      have harith : cur + (j - cur - 1) + 1 = j := by omega
      rw [harith, Nat.mod_eq_of_lt hj]
    · have hlt2 : j < cur := by omega
      refine ⟨j + n - cur - 1, by omega, ?_⟩
      have harith : cur + (j + n - cur - 1) + 1 = j + n := by omega
      rw [harith, Nat.add_mod_right, Nat.mod_eq_of_lt hj]
  obtain ⟨m, hm2, hmj⟩ := key
  obtain ⟨i, hi⟩ := rotateFrom_some auth n n cur ⟨m, by omega, by rw [hmj]; exact hja⟩
  obtain ⟨hai, m0, hm0n, him0, hmin⟩ := rotateFrom_sound auth n n cur i hi
  have hm0le : m0 ≤ m := by
    by_contra hgt
    push_neg at hgt
    have hf := hmin m hgt
    rw [hmj] at hf
    simp [hja] at hf
  have hine : i ≠ cur := by
    intro hic
    rw [him0] at hic
    rcases Nat.lt_or_ge (cur + m0 + 1) n with hlt | hge
    · rw [Nat.mod_eq_of_lt hlt] at hic
      omega
    · have hlt2 : cur + m0 + 1 - n < n := by omega
      rw [Nat.mod_eq_sub_mod hge, Nat.mod_eq_of_lt hlt2] at hic
      omega
  unfold rotate_account
  rw [hi]
  exact ⟨rfl, hine, hai⟩

def c9wauth : Nat → Bool := fun i => decide (i = 1)

/-- Witness for C9 at a concrete pool where another account authenticates. -/
theorem c9_witness :
    (rotate_account c9wauth 0 3).isSome = true ∧
    (rotate_account c9wauth 0 3).getD 0 ≠ 0 ∧
    c9wauth ((rotate_account c9wauth 0 3).getD 0) = true :=
  c9_rotate_amended c9wauth 3 0 1 (by decide) (by decide) (by decide) (by decide)

def c9cexAuth : Nat → Bool := fun i => decide (i = 0)

/-- C9 counterexample: when no other identity can authenticate, the
round-robin scan wraps and rotate_account returns the very identity that
hit the failure threshold (index 0) instead of none-available. -/
theorem c9_counterexample :
    c9cexAuth 1 = false ∧ c9cexAuth 2 = false ∧
    rotate_account c9cexAuth 0 3 = some 0 := by
  exact ⟨by decide, by decide, by decide⟩

-- ===== claim C3 =====

/-- C3 (corrected, amended): a successful download_file call guarantees the
target path exists; the size-bounds guarantee holds only when the success
is a fresh download (status SUCCESS). An ALREADY_EXISTS success skips the
size check entirely, so the pre-existing file may have any size, below
MIN_FILE_SIZE or even zero (see the counterexample). -/
theorem c3_success_bounds (fs : FS) (url title author ext : String) (net : NetResult)
    (h : (download_file fs url title author ext net).success = true) :
    fsExists (download_file fs url title author ext net).fs (filePathOf title author ext) = true ∧
    ((download_file fs url title author ext net).status = "SUCCESS" →
      ∃ sz, fsSize (download_file fs url title author ext net).fs
          (filePathOf title author ext) = some sz ∧
        MIN_FILE_SIZE ≤ sz ∧ sz ≤ MAX_FILE_SIZE) := by
  simp only [download_file] at h ⊢
  by_cases hurl : url = ""
  · rw [if_pos hurl] at h
    simp at h
  · rw [if_neg hurl] at h ⊢
    by_cases hex : fsExists fs (filePathOf title author ext) = true
    · rw [if_pos hex] at h ⊢
      refine ⟨hex, ?_⟩
      intro hst
      have hst2 : ("ALREADY_EXISTS" : String) = "SUCCESS" := hst
      exact absurd hst2 (by decide)
    · rw [if_neg hex] at h ⊢
      cases net with
      | timeout => simp at h
      | error m => simp at h
      | ok status ct cl body =>
        dsimp only at h ⊢
        by_cases h200 : status = 200
        · subst h200
          rw [if_pos rfl] at h ⊢
          by_cases hhtml : strContains ct "text/html" = true ∧ cl < 10000
          · rw [if_pos hhtml] at h
            simp at h
          · rw [if_neg hhtml] at h ⊢
            by_cases hsmall : body < MIN_FILE_SIZE
            · rw [if_pos hsmall] at h
              simp at h
            · rw [if_neg hsmall] at h ⊢
              by_cases hlarge : MAX_FILE_SIZE < body
              · rw [if_pos hlarge] at h
                simp at h
              · rw [if_neg hlarge] at h ⊢
                refine ⟨fsExists_fsWrite fs _ body, ?_⟩
                intro _
                exact ⟨body, fsSize_fsWrite fs _ body,
                  Nat.le_of_not_lt hsmall, Nat.le_of_not_lt hlarge⟩
        · rw [if_neg h200] at h
          simp at h

def c3wnet : NetResult := NetResult.ok 200 "application/pdf" 5000 5000

/-- Witness for C3 at a concrete successful fresh download. -/
theorem c3_witness :
    fsExists (download_file [] "http://u" "T" "A" "pdf" c3wnet).fs
      (filePathOf "T" "A" "pdf") = true :=
  (c3_success_bounds [] "http://u" "T" "A" "pdf" c3wnet (by decide)).1

def c3row : Record := ⟨"X", "T", "A", "pdf", "http://u", "", "NO", "", "", "", "", ""⟩

def c3env : Env := ⟨fun _ => true, fun _ _ => NetResult.timeout, 10, 3⟩

def c3fs : FS := [("zlib_data/files/T - A.pdf", 5)]

/-- C3 counterexample: the target path holds a pre-existing 5-byte file, far
below MIN_FILE_SIZE = 1000; the run skips the download (ALREADY_EXISTS),
records the item as file_downloaded = YES, and leaves the undersized file
in place, so a succeeded item violates the size bounds. -/
theorem c3_counterexample :
    ((download_files_with_rotation c3env 3 c3fs [c3row] ZLIBRARY_ACCOUNTS).df.get? 0).map
        Record.file_downloaded = some "YES" ∧
    filePathOf "T" "A" "pdf" = "zlib_data/files/T - A.pdf" ∧
    fsSize (download_files_with_rotation c3env 3 c3fs [c3row] ZLIBRARY_ACCOUNTS).fs
        "zlib_data/files/T - A.pdf" = some 5 ∧
    5 < MIN_FILE_SIZE := by
  exact ⟨by decide, by decide, by decide, by decide⟩

-- ===== claim C4 =====

def c4row : Record := ⟨"B1", "T", "A", "pdf", "", "http://img/x.jpg", "NO", "", "", "NO", "", ""⟩

def c4net : String → Nat → CoverNet := fun _ _ => CoverNet.ok 404 2000

/-- C4 (code_bug): evaluating the cover downloader at an item whose three
attempts all fail with HTTP 404 (no exception raised): the item is pending
and attempted, yet the run ends with the ledger identical to the input -
the failure is never recorded, although the code records NO_URL, TIMEOUT
and ERROR outcomes for the same loop. -/
theorem c4_unrecorded_http_failure :
    pendingCovers [c4row] = [c4row] ∧
    (download_covers_with_tracking c4net 3 [] [c4row]).df = [c4row] ∧
    c4row.cover_downloaded = "NO" := by
  exact ⟨by decide, by decide, by decide⟩

-- ===== claim C5 =====

theorem maybeRotate_df (env : Env) (st : DLState) : (maybeRotate env st).df = st.df := by
  unfold maybeRotate
  split
  · split <;> rfl
  · rfl

theorem runStep_df_frame (env : Env) (mr : Nat) (st : DLState) (row : Record)
    (i : Nat) (r : Record) (hi : st.df.get? i = some r) (hne : row.id ≠ r.id) :
    (runStep env mr st row).df.get? i = some r := by
  unfold runStep
  split
  · exact hi
  · split
    · rw [maybeRotate_df]
      exact hi
    · split
      · exact update_file_status_frame _ row.id _ _ _ i r
          (by rw [maybeRotate_df]; exact hi) hne.symm
      · exact update_file_status_frame _ row.id _ _ _ i r
          (by rw [maybeRotate_df]; exact hi) hne.symm

theorem foldl_runStep_df_frame (env : Env) (mr : Nat) (i : Nat) (r : Record) :
    ∀ (l : List Record) (st : DLState), (∀ p ∈ l, p.id ≠ r.id) →
      st.df.get? i = some r → (l.foldl (runStep env mr) st).df.get? i = some r := by
  intro l
  induction l with
  | nil => intro st _ hi; exact hi
  | cons p t ih =>
    intro st hall hi
    rw [List.foldl_cons]
    exact ih _ (fun q hq => hall q (List.mem_cons_of_mem _ hq))
      (runStep_df_frame env mr st p i r hi (hall p (List.mem_cons_self _ _)))

/-- C5 (corrected, amended): in download_files.py a run dispatches no
attempt for rows already marked YES (they are filtered out of the pending
list) and, provided no pending row shares their id, leaves their ledger
records unchanged. The enhanced batch of download_enhanced.py also skips
YES rows, but its whole-column status write afterwards rewrites every
row's record, the YES ones included (see the counterexample). -/
theorem c5_resume_amended (env : Env) (maxRetries : Nat) (fs0 : FS)
    (df : List Record) (accounts : List Account) (i : Nat) (r : Record)
    (hi : df.get? i = some r) (_hy : r.file_downloaded = "YES")
    (hid : ∀ p ∈ pendingFiles df, p.id ≠ r.id) :
    (∀ p ∈ pendingFiles df, p.file_downloaded ≠ "YES") ∧
    (download_files_with_rotation env maxRetries fs0 df accounts).df.get? i = some r := by
  constructor
  · intro p hp
    have hmem := List.mem_filter.mp hp
    simpa using hmem.2
  · unfold download_files_with_rotation
    split
    · exact hi
    · exact foldl_runStep_df_frame env maxRetries i r (pendingFiles df) _ hid hi

def c5wrowA : Record := ⟨"A", "", "", "", "", "", "YES", "", "", "", "", ""⟩

def c5wrowB : Record := ⟨"B", "T", "A", "pdf", "", "", "NO", "", "", "", "", ""⟩

def c5wdf : List Record := [c5wrowA, c5wrowB]

def c5wenv : Env := ⟨fun _ => true, fun _ _ => NetResult.timeout, 10, 3⟩

/-- Witness for C5 at a concrete two-row ledger. -/
theorem c5_witness :
    (download_files_with_rotation c5wenv 3 [] c5wdf ZLIBRARY_ACCOUNTS).df.get? 0 =
      some c5wrowA :=
  (c5_resume_amended c5wenv 3 [] c5wdf ZLIBRARY_ACCOUNTS 0 c5wrowA
    (by decide) (by decide) (by decide)).2

def c5rowA : Record := ⟨"A", "TA", "AA", "pdf", "", "", "YES", "", "", "", "", ""⟩

def c5rowB : Record := ⟨"B", "TB", "AB", "pdf", "http://u", "", "NO", "", "", "", "", ""⟩

def c5df : List Record := [c5rowA, c5rowB]

def c5zlibDL : String → Bool := fun _ => false

def c5zlibSize : String → Nat := fun _ => 0

/-- C5 counterexample: re-running the enhanced batch on a ledger where row A
is already YES and only row B is pending (and fails) rewrites A's record:
the whole-column write sets A's download_status to FAILED, so a succeeded
row's record is not identical before and after the run. -/
theorem c5_counterexample :
    c5df.get? 0 = some c5rowA ∧ c5rowA.file_downloaded = "YES" ∧
    (download_books_batch_async c5zlibDL c5zlibSize [] c5df).fst.get? 0 ≠ some c5rowA := by
  exact ⟨by decide, by decide, by decide⟩

-- ===== claim C7 =====

/-- C7 (corrected, amended): download_file never uses a temporary path and
never renames: its filesystem trace is either empty, or a single write of
the body directly to the final target path (the success case - the write
happens before the size validation), or that direct write followed by
removal of the same final path when validation fails. -/
theorem c7_direct_write (fs : FS) (url title author ext : String) (net : NetResult) :
    (download_file fs url title author ext net).events = [] ∨
    (∃ sz, (download_file fs url title author ext net).events =
      [FsEvent.write (filePathOf title author ext) sz]) ∨
    (∃ sz, (download_file fs url title author ext net).events =
      [FsEvent.write (filePathOf title author ext) sz,
       FsEvent.remove (filePathOf title author ext)]) := by
  simp only [download_file]
  split
  · exact Or.inl rfl
  · split
    · exact Or.inl rfl
    · split
      · exact Or.inl rfl
      · exact Or.inl rfl
      · split
        · split
          · exact Or.inl rfl
          · split
            · exact Or.inr (Or.inr ⟨_, rfl⟩)
            · split
              · exact Or.inr (Or.inr ⟨_, rfl⟩)
              · exact Or.inr (Or.inl ⟨_, rfl⟩)
        · exact Or.inl rfl

def c7net : NetResult := NetResult.ok 200 "application/pdf" 5000 5000

/-- C7 counterexample: a successful fresh download performs exactly one
filesystem action: it writes the fetched bytes directly to the final
target path - no temporary path is written first and no rename occurs. -/
theorem c7_counterexample :
    (download_file [] "http://u" "T" "A" "pdf" c7net).success = true ∧
    (download_file [] "http://u" "T" "A" "pdf" c7net).events =
      [FsEvent.write (filePathOf "T" "A" "pdf") 5000] := by
  exact ⟨by decide, by decide⟩
